import Mathlib

/-!
Verification of MimicRL (browser RL/behavior-cloning library) against its
natural-language specification.  The TypeScript sources are shallowly
embedded: the browser key/value store (localStorage) is an association
list, tensors are explicit records, and asynchronous control flow is
modelled by explicit event traces and small-step machines.
-/

set_option maxHeartbeats 1000000
set_option linter.unusedVariables false

namespace MimicRL

/-! ## A model of the browser localStorage key/value store

`setItem` overwrites the binding for a key, `removeItem` deletes it,
`getItem` looks it up.  Keys are unique in the association list. -/

abbrev Store := List (String × String)

def getItem (k : String) (st : Store) : Option String :=
  (st.find? (fun e => e.1 == k)).map (fun e => e.2)

def setItem (k v : String) (st : Store) : Store :=
  (k, v) :: st.filter (fun e => e.1 != k)

def removeItem (k : String) (st : Store) : Store :=
  st.filter (fun e => e.1 != k)

def storeKeys (st : Store) : List String :=
  st.map (fun e => e.1)

/-- Substring test on character lists: `inclAux pat l` is true iff some
suffix of `l` has `pat` as a prefix (the semantics of JS `includes`). -/
def inclAux (pat : List Char) : List Char → Bool
  | [] => pat.isEmpty
  | c :: rest => pat.isPrefixOf (c :: rest) || inclAux pat rest

/-- JS `String.prototype.includes`. -/
def strIncludes (s pat : String) : Bool :=
  inclAux pat.toList s.toList

/-- JS `String.prototype.startsWith`: prefix test on the character
sequences. -/
def strStartsWith (s pat : String) : Bool :=
  pat.toList.isPrefixOf s.toList

theorem getItem_filter (q : String → Bool) (k : String) (st : Store) :
    getItem k (st.filter (fun e => q e.1)) =
      if q k then getItem k st else none := by
  unfold getItem
  by_cases hq : q k
  · simp only [hq, if_pos]
    induction st with
    | nil => rfl
    | cons e rest ih =>
      by_cases he : e.1 = k
      · simp [List.filter_cons, he, hq, List.find?]
      · have hrhs : List.find? (fun e => e.1 == k) (e :: rest) =
            List.find? (fun e => e.1 == k) rest := by
          rw [List.find?_cons_of_neg]
          simp [he]
        by_cases hqe : q e.1
        · rw [List.filter_cons_of_pos (by simpa using hqe)]
          have hskip : List.find? (fun e => e.1 == k)
              (e :: rest.filter (fun e => q e.1)) =
              List.find? (fun e => e.1 == k) (rest.filter (fun e => q e.1)) := by
            rw [List.find?_cons_of_neg]
            simp [he]
          rw [hskip, hrhs]
          exact ih
        · rw [List.filter_cons_of_neg (by simpa using hqe), hrhs]
          exact ih
  · simp only [hq, if_neg, Bool.false_eq_true, not_false_iff]
    have : List.find? (fun e => e.1 == k) (st.filter (fun e => q e.1)) = none := by
      rw [List.find?_eq_none]
      intro e he
      have hmem := List.of_mem_filter he
      intro hk
      rw [beq_iff_eq] at hk
      rw [hk] at hmem
      exact hq (by simpa using hmem)
    simp [this]

theorem getItem_setItem_self (k v : String) (st : Store) :
    getItem k (setItem k v st) = some v := by
  simp [getItem, setItem]

theorem getItem_setItem_other (k k' v : String) (st : Store) (h : k' ≠ k) :
    getItem k' (setItem k v st) = getItem k' st := by
  unfold setItem
  have hcons : getItem k' ((k, v) :: st.filter (fun e => e.1 != k)) =
      getItem k' (st.filter (fun e => e.1 != k)) := by
    simp [getItem, List.find?, show (k == k') = false by simpa using Ne.symm h]
  rw [hcons, getItem_filter (fun s => s != k) k' st]
  simp [h]

theorem getItem_removeItem_self (k : String) (st : Store) :
    getItem k (removeItem k st) = none := by
  unfold removeItem
  rw [getItem_filter (fun s => s != k) k st]
  simp

theorem getItem_removeItem_other (k k' : String) (st : Store) (h : k' ≠ k) :
    getItem k' (removeItem k st) = getItem k' st := by
  unfold removeItem
  rw [getItem_filter (fun s => s != k) k' st]
  simp [h]

theorem getItem_mem_keys (k : String) (st : Store) (v : String)
    (h : getItem k st = some v) : k ∈ storeKeys st := by
  unfold getItem at h
  cases hf : st.find? (fun e => e.1 == k) with
  | none => rw [hf] at h; simp at h
  | some e =>
    have he : e ∈ st := List.mem_of_find?_eq_some hf
    have hk : (e.1 == k) = true := List.find?_some (p := fun (e : String × String) => e.1 == k) hf
    rw [beq_iff_eq] at hk
    exact hk ▸ List.mem_map_of_mem (fun e => e.1) he

theorem getItem_eq_none_of_not_mem (k : String) (st : Store)
    (h : k ∉ storeKeys st) : getItem k st = none := by
  cases hg : getItem k st with
  | none => rfl
  | some v => exact absurd (getItem_mem_keys k st v hg) h

theorem getItem_foldl_remove (ks : List String) (k : String) (st : Store) :
    getItem k (ks.foldl (fun s k' => removeItem k' s) st) =
      if k ∈ ks then none else getItem k st := by
  induction ks generalizing st with
  | nil => simp
  | cons k' rest ih =>
    simp only [List.foldl_cons]
    rw [ih]
    by_cases hk : k ∈ rest
    · simp [hk]
    · by_cases hkk : k = k'
      · subst hkk
        simp [hk, getItem_removeItem_self]
      · simp [hk, hkk, getItem_removeItem_other _ _ _ hkk]

/-! ## ModelManager (src/utils/ModelManager.ts)

The manager's `storagePrefix` configuration field is passed here as the
explicit argument `sp`.  Only the localStorage half of the persistence is
modelled; the IndexedDB mirror writes the same payload under the same
fixed id "current_model" and holds no history either. -/

def modelPat : String := "model_"

def currentModelName : String := "current_model"

def modelListName : String := "model_list"

/-- The predicate `cleanupOldModels` uses to pick keys to delete:
`key.startsWith(this.storagePrefix) && key.includes(MODEL_PAT) && key !== FIXED_MODEL_KEY`. -/
def isOldModelKey (sp k : String) : Bool :=
  strStartsWith k sp && strIncludes k modelPat && k != (sp ++ currentModelName)

/-- `ModelManager.cleanupOldModels`: iterates the store's keys, collects
those matching `isOldModelKey`, removes them, then removes the
model-list key. -/
def cleanupOldModels (sp : String) (st : Store) : Store :=
  let keysToRemove := (storeKeys st).filter (fun k => isOldModelKey sp k)
  let st1 := keysToRemove.foldl (fun s k => removeItem k s) st
  removeItem (sp ++ modelListName) st1

/-- `ModelManager.saveModel`, localStorage part: runs `cleanupOldModels`,
then writes the serialized model under the fixed key
`storagePrefix + "current_model"`, overwriting the previous save. -/
def saveModel (sp modelJson : String) (st : Store) : Store :=
  setItem (sp ++ currentModelName) modelJson (cleanupOldModels sp st)

/-- C3: for every call to `ModelManager.saveModel`, afterwards exactly one
current model is retained: the new serialized model sits under the single
fixed key `storagePrefix ++ "current_model"` (replacing whatever was stored
there), and every other previously stored model entry under the prefix
(any key starting with the prefix and containing "model_") has been
removed, so no checkpoint history accumulates. -/
theorem saveModel_single_slot (sp m : String) (st : Store) :
    getItem (sp ++ currentModelName) (saveModel sp m st) = some m ∧
    (∀ k : String, k ≠ sp ++ currentModelName →
      (strStartsWith k sp && strIncludes k modelPat) = true →
      getItem k (saveModel sp m st) = none) := by
  constructor
  · exact getItem_setItem_self _ _ _
  · intro k hne hpat
    unfold saveModel cleanupOldModels
    rw [getItem_setItem_other _ _ _ _ hne]
    by_cases hml : k = sp ++ modelListName
    · rw [hml]
      exact getItem_removeItem_self _ _
    · rw [getItem_removeItem_other _ _ _ hml]
      rw [getItem_foldl_remove]
      by_cases hmem : k ∈ (storeKeys st).filter (fun k => isOldModelKey sp k)
      · simp [hmem]
      · rw [if_neg hmem]
        apply getItem_eq_none_of_not_mem
        intro hkeys
        apply hmem
        rw [List.mem_filter]
        refine ⟨hkeys, ?_⟩
        unfold isOldModelKey
        rw [Bool.and_eq_true]
        exact ⟨hpat, by simpa using hne⟩

/-- Concrete inputs for the `saveModel` witness. -/
def wPre : String := "saber_rl_"

def wNew : String := "serialized_v1"

def wOldKey : String := "saber_rl_model_abc"

def wStore : Store :=
  [("saber_rl_model_abc", "serialized_old"),
   ("saber_rl_current_model", "serialized_v0"),
   ("unrelated_key", "x")]

theorem saveModel_single_slot_witness :
    getItem (wPre ++ currentModelName) (saveModel wPre wNew wStore) = some wNew ∧
    getItem wOldKey (saveModel wPre wNew wStore) = none :=
  ⟨(saveModel_single_slot wPre wNew wStore).1,
   (saveModel_single_slot wPre wNew wStore).2 wOldKey (by decide) (by decide)⟩

/-! ## BehaviorCloningTrainer configuration (src/MimicRL/bc/BehaviorCloningTrainer.ts)

The constructor reads exactly six recognized options out of the incoming
config bag, each with `config?.option ?? default`.  `unknownKeys` records
any further properties carried by the input object beyond the recognized
six; the constructor never looks at them. -/

inductive LossType
  | mse
  | crossentropy
  | mixed
deriving DecidableEq

structure BCConfigBag where
  learningRate : Option ℚ
  batchSize : Option Nat
  epochs : Option Nat
  lossType : Option LossType
  weightDecay : Option ℚ
  validationSplit : Option ℚ
  unknownKeys : List String
deriving DecidableEq

/-- The fully-resolved configuration record (`Required<BehaviorCloningTrainerConfig>`). -/
structure BCConfig where
  learningRate : ℚ
  batchSize : Nat
  epochs : Nat
  lossType : LossType
  weightDecay : ℚ
  validationSplit : ℚ
deriving DecidableEq

/-- The configuration part of the `BehaviorCloningTrainer` constructor.
A JS constructor can throw, so the outcome is an `Except`; this one
always succeeds, whatever the bag contains. -/
def bcTrainerInit (config : Option BCConfigBag) : Except String BCConfig :=
  .ok
    { learningRate := (config.bind (fun c => c.learningRate)).getD (1 / 1000)
      batchSize := (config.bind (fun c => c.batchSize)).getD 32
      epochs := (config.bind (fun c => c.epochs)).getD 10
      lossType := (config.bind (fun c => c.lossType)).getD .mixed
      weightDecay := (config.bind (fun c => c.weightDecay)).getD (1 / 10000)
      validationSplit := (config.bind (fun c => c.validationSplit)).getD (1 / 5) }

/-- A config bag that carries one unrecognized property. -/
def bagWithUnknown : BCConfigBag :=
  { learningRate := none, batchSize := none, epochs := none,
    lossType := none, weightDecay := none, validationSplit := none,
    unknownKeys := ["unknownOption"] }

/-- C1 counterexample: construction does NOT reject an unknown key — on a
bag whose only content is an unrecognized property, the constructor
succeeds and returns the all-defaults record. -/
theorem bcTrainerInit_accepts_unknown_key :
    bagWithUnknown.unknownKeys ≠ [] ∧
    bcTrainerInit (some bagWithUnknown) =
      .ok { learningRate := 1 / 1000, batchSize := 32, epochs := 10,
            lossType := .mixed, weightDecay := 1 / 10000, validationSplit := 1 / 5 } := by
  exact ⟨by simp [bagWithUnknown], rfl⟩

/-- C1 (amended): the constructor produces a single configuration record in
which every recognized option is enumerated and given an explicit default
(the all-defaults record when no bag is passed, and field-wise
`bag.option ?? default` otherwise), but an unknown key in the input is
silently ignored rather than rejected: construction succeeds and yields
the very same record whatever `unknownKeys` holds. -/
theorem bcTrainerInit_enumerated_defaults :
    (bcTrainerInit none =
      .ok { learningRate := 1 / 1000, batchSize := 32, epochs := 10,
            lossType := .mixed, weightDecay := 1 / 10000, validationSplit := 1 / 5 }) ∧
    (∀ bag : BCConfigBag,
      bcTrainerInit (some bag) =
        .ok { learningRate := bag.learningRate.getD (1 / 1000)
              batchSize := bag.batchSize.getD 32
              epochs := bag.epochs.getD 10
              lossType := bag.lossType.getD .mixed
              weightDecay := bag.weightDecay.getD (1 / 10000)
              validationSplit := bag.validationSplit.getD (1 / 5) }) ∧
    (∀ bag : BCConfigBag, ∀ ks : List String,
      bcTrainerInit (some { bag with unknownKeys := ks }) =
        bcTrainerInit (some bag)) :=
  ⟨rfl, fun _ => rfl, fun _ _ => rfl⟩

/-! ## Per-batch tensor lifecycle in BehaviorCloningTrainer.trainEpoch

A heap of live tensors: `alloc` models a tensor-creating tf operation
(`tf.tensor1d`, `tf.gather`), `dispose` models `tensor.dispose()`.
`trainBatch` runs inside `tf.tidy`, so its own intermediates are
reclaimed whether it returns or throws; its net heap effect is zero and
only its success or failure matters here. -/

structure TensorHeap where
  live : List Nat
  fresh : Nat
deriving DecidableEq

def alloc (h : TensorHeap) : Nat × TensorHeap :=
  (h.fresh, ⟨h.fresh :: h.live, h.fresh + 1⟩)

def dispose (id : Nat) (h : TensorHeap) : TensorHeap :=
  ⟨h.live.erase id, h.fresh⟩

/-- One mini-batch step of `BehaviorCloningTrainer.trainEpoch`: allocate
`batchIndicesTensor`, `batchObs`, `batchAct`; run `trainBatch`; if it
returns, dispose the three buffers (in source order `batchObs`,
`batchAct`, `batchIndicesTensor`); if it throws, the exception
propagates before any `dispose` call runs.  The returned flag is
whether the step completed. -/
def trainEpochStep (succeeds : Bool) (h : TensorHeap) : Bool × TensorHeap :=
  let (it, h1) := alloc h
  let (ob, h2) := alloc h1
  let (ac, h3) := alloc h2
  if succeeds then
    let h4 := dispose ob h3
    let h5 := dispose ac h4
    let h6 := dispose it h5
    (true, h6)
  else
    (false, h3)

/-- The mini-batch loop of `trainEpoch`: run `n` steps starting at batch
index `i`; a throwing step aborts the loop with the leaked heap. -/
def trainEpochLoop (fails : Nat → Bool) :
    Nat → Nat → TensorHeap → Except TensorHeap TensorHeap
  | _, 0, h => .ok h
  | i, n + 1, h =>
    let r := trainEpochStep (!fails i) h
    if r.1 then trainEpochLoop fails (i + 1) n r.2 else .error r.2

theorem trainEpochStep_true (h : TensorHeap) :
    trainEpochStep true h = (true, ⟨h.live, h.fresh + 3⟩) := by
  have h21 : ((h.fresh + 2) == (h.fresh + 1)) = false := by
    simp only [beq_eq_false_iff_ne, ne_eq]
    omega
  simp [trainEpochStep, alloc, dispose, List.erase_cons, h21]

theorem trainEpochStep_false (h : TensorHeap) :
    trainEpochStep false h =
      (false, ⟨(h.fresh + 2) :: (h.fresh + 1) :: h.fresh :: h.live, h.fresh + 3⟩) := by
  simp [trainEpochStep, alloc]

/-- C2 counterexample: when the training computation of a mini-batch step
throws, the per-batch buffers acquired during that step are NOT released
by the end of the step — starting from an empty heap, the failing step
leaves the three batch tensors live. -/
theorem trainEpochStep_leaks_on_failure :
    (trainEpochStep false ⟨[], 0⟩).2.live = [2, 1, 0] ∧
    ([2, 1, 0] : List Nat) ≠ [] := by
  constructor
  · rfl
  · simp

/-- C2 (amended): the three per-batch buffers of a mini-batch step
(`batchIndicesTensor`, `batchObs`, `batchAct`) are released by the end of
the step when the step's training computation succeeds — an epoch made of
succeeding steps restores the heap's live set — but when the computation
throws, the exception propagates past the dispose calls and the three
buffers stay live. -/
theorem trainEpochStep_scoped_release (h : TensorHeap) :
    (trainEpochStep true h).2.live = h.live ∧
    (trainEpochStep false h).2.live =
      (h.fresh + 2) :: (h.fresh + 1) :: h.fresh :: h.live ∧
    (∀ i n h0, trainEpochLoop (fun _ => false) i n h0 =
      .ok ⟨h0.live, h0.fresh + 3 * n⟩) := by
  refine ⟨by rw [trainEpochStep_true], by rw [trainEpochStep_false], ?_⟩
  intro i n
  induction n generalizing i with
  | zero => intro h0; simp [trainEpochLoop]
  | succ n ih =>
    intro h0
    simp only [trainEpochLoop, Bool.not_false, trainEpochStep_true, if_pos]
    rw [ih (i + 1) ⟨h0.live, h0.fresh + 3⟩]
    show Except.ok (⟨h0.live, h0.fresh + 3 + 3 * n⟩ : TensorHeap) =
      Except.ok (⟨h0.live, h0.fresh + 3 * (n + 1)⟩ : TensorHeap)
    congr 2
    omega

/-! ## PPOTrainer: GAE and the empty-pool no-op

The PPOTrainer implementation itself is not among the provided source
files (only the README documents it), so the definitions below are
modelled from the specification. -/

/-- Modelled from the spec: the `Transition` record of §3, one decision
point for one trainable player (PPOTrainer source file missing from the
provided sources). -/
structure Transition where
  observation : List ℚ
  action : List ℚ
  logProb : ℚ
  value : ℚ
  reward : ℚ
  done : Bool
  playerIndex : Nat
deriving DecidableEq

/-- Modelled from the spec: the backward GAE recursion of §4.4,
`A_t = δ_t + γ·λ·(1 − done_t)·A_{t+1}` with
`δ_t = r_t + γ·V(s_{t+1})·(1 − done_t) − V(s_t)`; `vEnd` is the value used
for the state after the last transition and `aEnd` the advantage seed
after the last step (0, or the bootstrap value if truncated).  Returns
the advantages in the trajectory's temporal order. -/
def gaeAdvantages (g lam vEnd aEnd : ℚ) : List Transition → List ℚ
  | [] => []
  | t :: rest =>
    let tailAdvs := gaeAdvantages g lam vEnd aEnd rest
    let nextV := match rest with
      | [] => vEnd
      | t2 :: _ => t2.value
    let nextA := tailAdvs.headD aEnd
    let mask : ℚ := if t.done then 0 else 1
    let d := t.reward + g * nextV * mask - t.value
    (d + g * lam * mask * nextA) :: tailAdvs

/-- The list of one-step TD residuals `δ_t` of the same trajectory. -/
def tdResiduals (g vEnd : ℚ) : List Transition → List ℚ
  | [] => []
  | t :: rest =>
    let nextV := match rest with
      | [] => vEnd
      | t2 :: _ => t2.value
    let mask : ℚ := if t.done then 0 else 1
    (t.reward + g * nextV * mask - t.value) :: tdResiduals g vEnd rest

/-- Discounted Monte-Carlo return of a trajectory suffix. -/
def mcReturn (g : ℚ) : List Transition → ℚ
  | [] => 0
  | t :: rest => t.reward + g * mcReturn g rest

/-- Per-step full-return advantages: discounted Monte-Carlo return from
each step minus that step's value baseline. -/
def mcAdvList (g : ℚ) : List Transition → List ℚ
  | [] => []
  | t :: rest => (mcReturn g (t :: rest) - t.value) :: mcAdvList g rest

/-- A complete (non-truncated) episode: `done` is false at every step
except the last, where it is true. -/
inductive EpisodeShape : List Transition → Prop
  | last (t : Transition) : t.done = true → EpisodeShape [t]
  | cons (t : Transition) (ts : List Transition) :
      t.done = false → EpisodeShape ts → EpisodeShape (t :: ts)

theorem EpisodeShape.ne_nil {ts : List Transition} (h : EpisodeShape ts) :
    ts ≠ [] := by
  cases h <;> simp

theorem gae_lambda_zero (g vEnd aEnd : ℚ) (ts : List Transition) :
    gaeAdvantages g 0 vEnd aEnd ts = tdResiduals g vEnd ts := by
  induction ts with
  | nil => rfl
  | cons t rest ih =>
    simp only [gaeAdvantages, tdResiduals, ih]
    congr 1
    ring

theorem gae_lambda_one (g vEnd aEnd : ℚ) (ts : List Transition)
    (h : EpisodeShape ts) :
    gaeAdvantages g 1 vEnd aEnd ts = mcAdvList g ts := by
  induction h with
  | last t hdone =>
    simp only [gaeAdvantages, mcAdvList, mcReturn, hdone, if_pos]
    norm_num
  | cons t rest hdone hshape ih =>
    cases rest with
    | nil => exact absurd rfl hshape.ne_nil
    | cons t2 rest' =>
      have hunfold : gaeAdvantages g 1 vEnd aEnd (t :: t2 :: rest') =
          ((t.reward + g * t2.value * (if t.done then 0 else 1) - t.value) +
            g * 1 * (if t.done then 0 else 1) *
              ((gaeAdvantages g 1 vEnd aEnd (t2 :: rest')).headD aEnd)) ::
          gaeAdvantages g 1 vEnd aEnd (t2 :: rest') := rfl
      have hhead : (mcAdvList g (t2 :: rest')).headD aEnd =
          mcReturn g (t2 :: rest') - t2.value := by
        simp [mcAdvList]
      rw [hunfold, ih, hhead]
      show _ = mcAdvList g (t :: t2 :: rest')
      rw [show mcAdvList g (t :: t2 :: rest') =
        (mcReturn g (t :: t2 :: rest') - t.value) :: mcAdvList g (t2 :: rest') from rfl]
      congr 1
      rw [hdone]
      simp only [Bool.false_eq_true, if_neg, not_false_iff, if_false]
      rw [show mcReturn g (t :: t2 :: rest') =
        t.reward + g * mcReturn g (t2 :: rest') from rfl]
      ring

/-- C4: for every trajectory, the GAE recursion
`A_t = δ_t + γ·λ·(1 − done_t)·A_{t+1}` (with the advantage after the last
step 0, or a bootstrap value if truncated) satisfies: at `λ = 0` the
advantage of every step equals its one-step TD residual `δ_t`, and at
`λ = 1`, on a non-truncated episode, of every step it equals the full
discounted Monte-Carlo return from that step minus the value baseline. -/
theorem gae_lambda_endpoints :
    (∀ (g vEnd aEnd : ℚ) (ts : List Transition),
      gaeAdvantages g 0 vEnd aEnd ts = tdResiduals g vEnd ts) ∧
    (∀ (g vEnd aEnd : ℚ) (ts : List Transition), EpisodeShape ts →
      gaeAdvantages g 1 vEnd aEnd ts = mcAdvList g ts) :=
  ⟨gae_lambda_zero, gae_lambda_one⟩

/-- A concrete two-step episode for the GAE witness. -/
def witnessEpisode : List Transition :=
  [{ observation := [], action := [], logProb := 0, value := 5,
     reward := 1, done := false, playerIndex := 0 },
   { observation := [], action := [], logProb := 0, value := 3,
     reward := 2, done := true, playerIndex := 0 }]

theorem gae_lambda_endpoints_witness :
    gaeAdvantages (1 / 2) 0 7 9 witnessEpisode = tdResiduals (1 / 2) 7 witnessEpisode ∧
    (EpisodeShape witnessEpisode ∧
      gaeAdvantages (1 / 2) 1 7 9 witnessEpisode = mcAdvList (1 / 2) witnessEpisode) := by
  have hshape : EpisodeShape witnessEpisode :=
    EpisodeShape.cons _ _ rfl (EpisodeShape.last _ rfl)
  exact ⟨gae_lambda_endpoints.1 (1 / 2) 7 9 witnessEpisode,
    hshape, gae_lambda_endpoints.2 (1 / 2) 7 9 witnessEpisode hshape⟩

/-- Modelled from the spec: the diagnostics record returned by
`PPOTrainer.train` (§4.4; PPOTrainer source file missing from the
provided sources). -/
structure PPODiagnostics where
  policyLoss : ℚ
  valueLoss : ℚ
  entropy : ℚ
  klDivergence : ℚ
  clipFraction : ℚ
deriving DecidableEq

def zeroDiagnostics : PPODiagnostics :=
  { policyLoss := 0, valueLoss := 0, entropy := 0,
    klDivergence := 0, clipFraction := 0 }

/-- Modelled from the spec: `PPOTrainer.train` over an agent-parameter
type `P` (§4.4/§7; PPOTrainer source file missing from the provided
sources).  An empty transition pool is a no-op that reports zero-valued
diagnostics; a non-empty pool is handed to the optimization phase
(GAE + clipped-objective epochs), abstracted here as `optimize`. -/
def ppoTrain {P : Type} (optimize : P → List Transition → P × PPODiagnostics)
    (params : P) (pool : List Transition) : P × PPODiagnostics :=
  match pool with
  | [] => (params, zeroDiagnostics)
  | _ :: _ => optimize params pool

/-- C5: for every call to `PPOTrainer.train` with an empty transition
pool, the trainer returns a no-op result with zero-valued diagnostics
(policyLoss, valueLoss, entropy, klDivergence, clipFraction all 0)
rather than raising an error, and the agent's parameters are unchanged
by the call. -/
theorem ppoTrain_empty_noop {P : Type}
    (optimize : P → List Transition → P × PPODiagnostics)
    (params : P) (pool : List Transition) (h : pool = []) :
    ppoTrain optimize params pool = (params, zeroDiagnostics) := by
  subst h
  rfl

theorem ppoTrain_empty_noop_witness :
    ppoTrain (fun p _ => (p + 1, zeroDiagnostics)) (0 : Nat) [] =
      (0, zeroDiagnostics) :=
  ppoTrain_empty_noop (fun p _ => (p + 1, zeroDiagnostics)) 0 [] rfl

/-! ## DemonstrationStorage (src/MimicRL/bc/DemonstrationStorage.ts)

The constructor feature-detects the host environment once
(`typeof window !== 'undefined' && typeof localStorage !== 'undefined'`)
and stores the result in `isBrowser`.  Every operation below also
receives the ambient capabilities at call time (`amb`), exactly so that
the theorems can show the operations never consult them.  `Date.now()`
is the explicit `now` argument, and `JSON.stringify(dataset)` is the
explicit `datasetJson` argument. -/

inductive StorageFormat
  | json
  | binary
deriving DecidableEq

structure DemonstrationStorageConfig where
  storageKey : Option String
  format : Option StorageFormat
deriving DecidableEq

/-- Ambient host capabilities as seen by feature detection. -/
structure Ambient where
  hasWindow : Bool
  hasLocalStorage : Bool
deriving DecidableEq

structure DemonstrationStorage where
  storageKey : String
  format : StorageFormat
  isBrowser : Bool
deriving DecidableEq

def mimicrlDefaultKey : String := "mimicrl_demonstrations"

/-- The `DemonstrationStorage` constructor.  `config?.storageKey ||
default` treats the empty string as falsy (JS `||`). -/
def DemonstrationStorage.create (config : Option DemonstrationStorageConfig)
    (amb : Ambient) : DemonstrationStorage :=
  { storageKey :=
      match config.bind (fun c => c.storageKey) with
      | some s => if s = "" then mimicrlDefaultKey else s
      | none => mimicrlDefaultKey
    format := (config.bind (fun c => c.format)).getD .json
    isBrowser := amb.hasWindow && amb.hasLocalStorage }

def fsError : String :=
  "File system storage not implemented. Use browser environment or implement fs module."

def formatExt (f : StorageFormat) : String :=
  match f with
  | .json => "json"
  | .binary => "bin"

def defaultFilename (f : StorageFormat) (now : Nat) : String :=
  "demonstrations_" ++ toString now ++ "." ++ formatExt f

def notFoundMsg : String := "Dataset not found: "

def DemonstrationStorage.saveDataset (s : DemonstrationStorage) (amb : Ambient)
    (st : Store) (datasetJson : String) (filename : Option String) (now : Nat) :
    Except String (String × Store) :=
  let fn := match filename with
    | some f => if f = "" then defaultFilename s.format now else f
    | none => defaultFilename s.format now
  if s.isBrowser then
    let key := s.storageKey ++ "_" ++ fn
    .ok (key, setItem key datasetJson st)
  else
    .error fsError

def DemonstrationStorage.loadDataset (s : DemonstrationStorage) (amb : Ambient)
    (st : Store) (key : String) : Except String String :=
  if s.isBrowser then
    match getItem key st with
    | some json => .ok json
    | none => .error (notFoundMsg ++ key)
  else
    .error fsError

def DemonstrationStorage.listDatasets (s : DemonstrationStorage) (amb : Ambient)
    (st : Store) : Except String (List String) :=
  if s.isBrowser then
    .ok ((storeKeys st).filter (fun k => strStartsWith k (s.storageKey ++ "_")))
  else
    .error fsError

def DemonstrationStorage.deleteDataset (s : DemonstrationStorage) (amb : Ambient)
    (st : Store) (key : String) : Except String Store :=
  if s.isBrowser then
    .ok (removeItem key st)
  else
    .error fsError

def DemonstrationStorage.getStorageSize (s : DemonstrationStorage) (amb : Ambient)
    (st : Store) : Nat :=
  if s.isBrowser then
    ((st.filter (fun e => strStartsWith e.1 (s.storageKey ++ "_"))).map
      (fun e => e.2.length)).sum
  else 0

/-- C6: the storage-backend capability decision of `DemonstrationStorage`
is made exactly once, in the constructor, which captures
`window present && localStorage present` in `isBrowser`; every storage
operation (`saveDataset`, `loadDataset`, `listDatasets`, `deleteDataset`,
`getStorageSize`) is insensitive to the ambient capabilities at call
time, so two calls on the same constructed instance always take the same
backend branch — in particular an instance with `isBrowser = false`
takes the filesystem branch whatever the ambient looks like later. -/
theorem demonstrationStorage_backend_once :
    (∀ (config : Option DemonstrationStorageConfig) (amb : Ambient),
      (DemonstrationStorage.create config amb).isBrowser =
        (amb.hasWindow && amb.hasLocalStorage)) ∧
    (∀ (s : DemonstrationStorage) (a1 a2 : Ambient) (st : Store)
        (dj : String) (fn : Option String) (now : Nat),
      s.saveDataset a1 st dj fn now = s.saveDataset a2 st dj fn now) ∧
    (∀ (s : DemonstrationStorage) (a1 a2 : Ambient) (st : Store) (k : String),
      s.loadDataset a1 st k = s.loadDataset a2 st k) ∧
    (∀ (s : DemonstrationStorage) (a1 a2 : Ambient) (st : Store),
      s.listDatasets a1 st = s.listDatasets a2 st) ∧
    (∀ (s : DemonstrationStorage) (a1 a2 : Ambient) (st : Store) (k : String),
      s.deleteDataset a1 st k = s.deleteDataset a2 st k) ∧
    (∀ (s : DemonstrationStorage) (a1 a2 : Ambient) (st : Store),
      s.getStorageSize a1 st = s.getStorageSize a2 st) ∧
    (∀ (s : DemonstrationStorage) (amb : Ambient) (st : Store) (k : String),
      s.isBrowser = false → s.loadDataset amb st k = .error fsError) := by
  refine ⟨fun _ _ => rfl, fun _ _ _ _ _ _ _ => rfl, fun _ _ _ _ _ => rfl,
    fun _ _ _ _ => rfl, fun _ _ _ _ _ => rfl, fun _ _ _ _ => rfl, ?_⟩
  intro s amb st k h
  simp [DemonstrationStorage.loadDataset, h]

/-- An instance constructed where `window` is absent. -/
def fsInstance : DemonstrationStorage :=
  DemonstrationStorage.create none ⟨false, true⟩

theorem demonstrationStorage_backend_once_witness :
    fsInstance.isBrowser = false ∧
    fsInstance.loadDataset ⟨true, true⟩ [] mimicrlDefaultKey = .error fsError :=
  ⟨rfl, demonstrationStorage_backend_once.2.2.2.2.2.2 fsInstance ⟨true, true⟩ []
    mimicrlDefaultKey rfl⟩

/-! ## Yield cadence of the BC training loops (BehaviorCloningTrainer)

`trainEpoch` and `train` are long-running async loops; their suspension
behaviour is captured as an event trace. -/

inductive BCEvent
  | batchStep (i : Nat)
  | yieldEvent
deriving DecidableEq

/-- Events of one iteration of the mini-batch loop in `trainEpoch`: run
batch `i`, then `if (i % 10 === 0) await this.yieldToEventLoop()`. -/
def batchEvents (i : Nat) : List BCEvent :=
  [BCEvent.batchStep i] ++ (if i % 10 == 0 then [BCEvent.yieldEvent] else [])

/-- Event trace of one `trainEpoch` call over `numBatches` mini-batches. -/
def trainEpochTrace (numBatches : Nat) : List BCEvent :=
  (List.range numBatches).flatMap batchEvents

/-- Event trace of `train` over `epochs` epochs: each epoch runs its
mini-batch loop and then awaits one further `yieldToEventLoop`. -/
def trainTrace (epochs numBatches : Nat) : List BCEvent :=
  (List.range epochs).flatMap
    (fun _ => trainEpochTrace numBatches ++ [BCEvent.yieldEvent])

theorem batchEvents_yield_of_mod (i : Nat) (h : i % 10 = 0) :
    batchEvents i = [BCEvent.batchStep i, BCEvent.yieldEvent] := by
  simp [batchEvents, h]

theorem yield_in_window (i : Nat) :
    BCEvent.yieldEvent ∈ (List.range' i 10).flatMap batchEvents := by
  rw [List.mem_flatMap]
  refine ⟨i + (10 - i % 10) % 10, ?_, ?_⟩
  · rw [List.mem_range'_1]
    omega
  · have hmod : (i + (10 - i % 10) % 10) % 10 = 0 := by omega
    rw [batchEvents_yield_of_mod _ hmod]
    simp

theorem trainTrace_yield_count (e n : Nat) :
    (trainTrace e n).count BCEvent.yieldEvent =
      e * ((trainEpochTrace n).count BCEvent.yieldEvent + 1) := by
  induction e with
  | zero => simp [trainTrace]
  | succ e ih =>
    unfold trainTrace at ih ⊢
    rw [List.range_succ, List.flatMap_append, List.count_append, ih]
    simp [List.count_append, Nat.succ_mul]

/-- C7: during every epoch of the BC mini-batch loop a voluntary yield is
inserted at bounded cadence: the loop yields right after every batch
whose index is divisible by 10 (so every 10 consecutive batch indices
contain a yield point), and `train` performs one additional yield after
each completed epoch (`epochs` epochs yield `epochs` extra times beyond
the per-batch yields). -/
theorem bc_yield_cadence :
    (∀ i : Nat, i % 10 = 0 →
      batchEvents i = [BCEvent.batchStep i, BCEvent.yieldEvent]) ∧
    (∀ i : Nat, BCEvent.yieldEvent ∈ (List.range' i 10).flatMap batchEvents) ∧
    (∀ e n : Nat, trainTrace e n =
      (List.range e).flatMap
        (fun _ => trainEpochTrace n ++ [BCEvent.yieldEvent])) ∧
    (∀ e n : Nat, (trainTrace e n).count BCEvent.yieldEvent =
      e * ((trainEpochTrace n).count BCEvent.yieldEvent + 1)) :=
  ⟨batchEvents_yield_of_mod, yield_in_window, fun _ _ => rfl, trainTrace_yield_count⟩

theorem bc_yield_cadence_witness :
    batchEvents 20 = [BCEvent.batchStep 20, BCEvent.yieldEvent] ∧
    BCEvent.yieldEvent ∈ (List.range' 3 10).flatMap batchEvents :=
  ⟨bc_yield_cadence.1 20 rfl, bc_yield_cadence.2.1 3⟩

/-! ## BehaviorCloningTrainer.yieldToEventLoop

The strategy choice reads the Page Visibility API; the resolution
behaviour of the two strategies is a small-step machine over the
trainer's MessageChannel plumbing (`port1.onmessage` installed in the
constructor) and the host timer queue. -/

structure DocState where
  hidden : Bool
  visibilityState : String
deriving DecidableEq

def hiddenStr : String := "hidden"

/-- `typeof document !== 'undefined' && (document.hidden ||
document.visibilityState === 'hidden')`. -/
def isHiddenCheck : Option DocState → Bool
  | none => false
  | some d => d.hidden || d.visibilityState == hiddenStr

inductive YieldStrategy
  | messageChannel
  | timeoutZero
deriving DecidableEq

/-- Which yielding strategy `yieldToEventLoop` takes for a given
visibility state. -/
def chooseYieldStrategy (doc : Option DocState) : YieldStrategy :=
  if isHiddenCheck doc then .messageChannel else .timeoutZero

/-- State of the trainer's yielding plumbing plus the pending promise:
`yieldChannelResolve` is whether a resolve callback is stored,
`port1Pending`/`timerPending` count queued port-1 messages and due
timers, `promiseResolved` is whether the promise returned by the last
`yieldToEventLoop` call has resolved. -/
structure YieldMachine where
  yieldChannelResolve : Bool
  port1Pending : Nat
  timerPending : Nat
  promiseResolved : Bool
deriving DecidableEq

/-- `yieldToEventLoop`: when hidden, store the new promise's resolve in
`yieldChannelResolve` and post a message on port 2 (queued for port 1);
when visible, schedule a `setTimeout(..., 0)` task that resolves the
promise. -/
def yieldToEventLoop (doc : Option DocState) (s : YieldMachine) : YieldMachine :=
  if isHiddenCheck doc then
    { s with yieldChannelResolve := true,
             port1Pending := s.port1Pending + 1,
             promiseResolved := false }
  else
    { s with timerPending := s.timerPending + 1,
             promiseResolved := false }

/-- The host delivers one queued port-1 message: the handler installed in
the constructor calls the stored resolve (if any) and clears it. -/
def deliverPort1Message (s : YieldMachine) : YieldMachine :=
  if s.port1Pending = 0 then s
  else if s.yieldChannelResolve then
    { s with port1Pending := s.port1Pending - 1,
             yieldChannelResolve := false,
             promiseResolved := true }
  else
    { s with port1Pending := s.port1Pending - 1 }

/-- The host fires one due timer task: its callback is the promise's
resolve. -/
def fireTimer (s : YieldMachine) : YieldMachine :=
  if s.timerPending = 0 then s
  else
    { s with timerPending := s.timerPending - 1,
             promiseResolved := true }

/-- C8: `yieldToEventLoop` selects its strategy by host visibility state —
a MessageChannel message when the document is hidden and `setTimeout(0)`
when visible — and in both states the returned promise resolves once the
host delivers the queued task, so the training loop makes progress
whether the tab is foregrounded or backgrounded. -/
theorem yieldToEventLoop_progress (doc : Option DocState) (s : YieldMachine) :
    (isHiddenCheck doc = true →
      chooseYieldStrategy doc = .messageChannel ∧
      (deliverPort1Message (yieldToEventLoop doc s)).promiseResolved = true) ∧
    (isHiddenCheck doc = false →
      chooseYieldStrategy doc = .timeoutZero ∧
      (fireTimer (yieldToEventLoop doc s)).promiseResolved = true) := by
  constructor
  · intro h
    refine ⟨by simp [chooseYieldStrategy, h], ?_⟩
    simp [yieldToEventLoop, deliverPort1Message, h]
  · intro h
    refine ⟨by simp [chooseYieldStrategy, h], ?_⟩
    simp [yieldToEventLoop, fireTimer, h]

/-- The machine state right after construction. -/
def freshYieldMachine : YieldMachine :=
  { yieldChannelResolve := false, port1Pending := 0,
    timerPending := 0, promiseResolved := false }

theorem yieldToEventLoop_progress_witness :
    (isHiddenCheck (some ⟨true, hiddenStr⟩) = true ∧
      (deliverPort1Message
        (yieldToEventLoop (some ⟨true, hiddenStr⟩) freshYieldMachine)).promiseResolved
          = true) ∧
    (isHiddenCheck none = false ∧
      (fireTimer (yieldToEventLoop none freshYieldMachine)).promiseResolved = true) :=
  ⟨⟨rfl, ((yieldToEventLoop_progress (some ⟨true, hiddenStr⟩) freshYieldMachine).1 rfl).2⟩,
   ⟨rfl, ((yieldToEventLoop_progress none freshYieldMachine).2 rfl).2⟩⟩

/-! ## NetworkUtils (src/utils/NetworkUtils.ts)

Tensor entries are opaque values of a type `α`: serialization and
loading move them around but never compute with them. -/

structure NetworkArchitecture where
  inputSize : Nat
  hiddenLayers : List Nat
  outputSize : Nat
  activation : String
deriving DecidableEq

/-- A weight tensor as it appears both in `model.getWeights()` and in
serialized form: raw values, shape, dtype. -/
structure TensorData (α : Type) where
  data : List α
  shape : List Nat
  dtype : String
deriving DecidableEq

structure SerializedNetworkData (α : Type) where
  architecture : NetworkArchitecture
  weights : List (TensorData α)
deriving DecidableEq

structure DenseLayerSpec where
  units : Nat
  inputShape : Option (List Nat)
  activation : String
  name : String
deriving DecidableEq

/-- A `tf.LayersModel`: its layer stack and its current weight tensors. -/
structure LayersModel (α : Type) where
  layers : List DenseLayerSpec
  weights : List (TensorData α)
deriving DecidableEq

def inputLayerName : String := "input_layer"

def outputLayerName : String := "output_layer"

def hiddenLayerName (i : Nat) : String := "hidden_layer_" ++ toString i

def linearAct : String := "linear"

def shapeErr : String := "weight shape mismatch"

def archErr : String := "undefined units for first hidden layer"

/-- The sequential layer stack `loadNetworkFromSerialized` builds from a
declared architecture whose hidden-layer list is `h0 :: rest`: a first
dense layer of `h0` units taking `inputSize` inputs, one dense layer per
further hidden size (named `hidden_layer_i` from `i = 1`), all with the
declared activation, and a linear output layer of `outputSize` units. -/
def builtLayers (arch : NetworkArchitecture) (h0 : Nat) (rest : List Nat) :
    List DenseLayerSpec :=
  ({ units := h0, inputShape := some [arch.inputSize],
     activation := arch.activation, name := inputLayerName } ::
    ((List.range rest.length).zip rest).map (fun p =>
      { units := p.2, inputShape := none, activation := arch.activation,
        name := hiddenLayerName (p.1 + 1) })) ++
  [{ units := arch.outputSize, inputShape := none,
     activation := linearAct, name := outputLayerName }]

/-- Kernel/bias shapes of a dense stack fed `d` inputs: each layer
contributes a `[d, units]` kernel and a `[units]` bias. -/
def chainShapes (d : Nat) : List DenseLayerSpec → List (List Nat)
  | [] => []
  | l :: rest => [d, l.units] :: [l.units] :: chainShapes l.units rest

/-- The weight shapes a sequential model expects, read off its layer
stack (the first layer must declare a rank-1 input shape). -/
def modelWeightShapes (layers : List DenseLayerSpec) : Option (List (List Nat)) :=
  match layers with
  | [] => some []
  | l0 :: _ =>
    match l0.inputShape with
    | some [d] => some (chainShapes d layers)
    | _ => none

/-- `tf.LayersModel.setWeights`: replaces the model's weight tensors
wholesale; throws when the provided tensors do not match the model's
expected weight shapes. -/
def setWeights {α : Type} (m : LayersModel α) (ws : List (TensorData α)) :
    Except String (LayersModel α) :=
  match modelWeightShapes m.layers with
  | none => .error shapeErr
  | some shapes =>
    if ws.map (fun w => w.shape) = shapes then .ok { m with weights := ws }
    else .error shapeErr

/-- `NetworkUtils.serializeNetwork`: pairs the given architecture config
with each weight tensor's raw data, shape and dtype from
`model.getWeights()`. -/
def serializeNetwork {α : Type} (model : LayersModel α)
    (architecture : NetworkArchitecture) : SerializedNetworkData α :=
  { architecture := architecture
    weights := model.weights.map (fun w =>
      { data := w.data, shape := w.shape, dtype := w.dtype }) }

/-- `NetworkUtils.loadNetworkFromSerialized`: rebuilds the sequential
model from the declared architecture, then — when serialized weights are
present — reconstructs each weight tensor
(`tf.tensor(w.data, w.shape, w.dtype)`) and installs them via
`setWeights`.  The fresh model's random initialization is abstracted as
an empty weight list since `setWeights` replaces it wholesale; with an
empty hidden-layer list the source reads `hiddenLayers[0]` as undefined
and layer construction throws. -/
def loadNetworkFromSerialized {α : Type} (sd : SerializedNetworkData α) :
    Except String (LayersModel α) :=
  match sd.architecture.hiddenLayers with
  | [] => .error archErr
  | h0 :: rest =>
    let model : LayersModel α :=
      { layers := builtLayers sd.architecture h0 rest, weights := [] }
    if sd.weights.isEmpty then .ok model
    else
      let weightTensors := sd.weights.map (fun w =>
        ({ data := w.data, shape := w.shape, dtype := w.dtype } : TensorData α))
      setWeights model weightTensors

/-- C9: for every network architecture with at least one hidden layer and
every weight list consistent with it, the round-trip
`loadNetworkFromSerialized(serializeNetwork(model, architecture))` yields
a model with the same layer structure — each hidden layer's size and
activation as declared, a linear output layer of the declared output
size — and exactly the same weight values, shapes, and dtypes as the
serialized model. -/
theorem network_roundtrip {α : Type} (model : LayersModel α)
    (arch : NetworkArchitecture) (h0 : Nat) (rest : List Nat)
    (hh : arch.hiddenLayers = h0 :: rest)
    (hw : model.weights.map (fun w => w.shape) =
      chainShapes arch.inputSize (builtLayers arch h0 rest)) :
    loadNetworkFromSerialized (serializeNetwork model arch) =
      .ok { layers := builtLayers arch h0 rest, weights := model.weights } := by
  have heta : (fun (w : TensorData α) =>
      ({ data := w.data, shape := w.shape, dtype := w.dtype } : TensorData α)) =
      id := by
    funext w
    rfl
  have hne : model.weights ≠ [] := by
    intro hnil
    rw [hnil] at hw
    simp [builtLayers, chainShapes] at hw
  unfold loadNetworkFromSerialized serializeNetwork
  simp only [heta, List.map_id, hh]
  rw [if_neg (by simpa [List.isEmpty_iff] using hne)]
  unfold setWeights
  have hshapes : modelWeightShapes (builtLayers arch h0 rest) =
      some (chainShapes arch.inputSize (builtLayers arch h0 rest)) := rfl
  simp only [hshapes, heta, List.map_id]
  rw [if_pos hw]

/-- Concrete inputs for the round-trip witness. -/
def reluStr : String := "relu"

def f32 : String := "float32"

def wArch : NetworkArchitecture :=
  { inputSize := 1, hiddenLayers := [2], outputSize := 1, activation := reluStr }

def wModel : LayersModel Int :=
  { layers := builtLayers wArch 2 [],
    weights :=
      [{ data := [5, 6], shape := [1, 2], dtype := f32 },
       { data := [0, 1], shape := [2], dtype := f32 },
       { data := [7, 8], shape := [2, 1], dtype := f32 },
       { data := [9], shape := [1], dtype := f32 }] }

theorem network_roundtrip_witness :
    loadNetworkFromSerialized (serializeNetwork wModel wArch) =
      .ok { layers := builtLayers wArch 2 [], weights := wModel.weights } :=
  network_roundtrip wModel wArch 2 [] rfl (by decide)

/-! ## DemonstrationCollector (src/bc/DemonstrationCollector.ts)

Step metadata is `Record<string, any>`; the only key the embedding has
to track is a possible caller-supplied `stepIndex` (`mdIdx`), because
`{ stepIndex: computed, ...stepMetadata }` lets it override the computed
index by JS object-spread.  `Date.now()` is the explicit `now`
argument. -/

structure DemoStep where
  observation : List ℚ
  action : List ℚ
  stepIndex : Nat
deriving DecidableEq

structure DemoEpisode where
  id : String
  steps : List DemoStep
  timestamp : Nat
  duration : Option Nat
deriving DecidableEq

structure CollectorState where
  autoRecord : Bool
  maxBufferSize : Nat
  currentEpisode : Option DemoEpisode
  episodeBuffer : List DemoEpisode
  isRecording : Bool
deriving DecidableEq

/-- `flushCurrentEpisode`: if the current episode has steps, push it to
the buffer and continue a fresh episode with the same id and metadata. -/
def flushCurrentEpisode (st : CollectorState) : CollectorState :=
  match st.currentEpisode with
  | some e =>
    if e.steps.length > 0 then
      { st with episodeBuffer := st.episodeBuffer ++ [e],
                currentEpisode := some { e with steps := [] } }
    else st
  | none => st

/-- `recordStep`: return untouched when not recording or no current
episode; otherwise append one step whose metadata stepIndex is the
episode's current length unless the caller's metadata overrides it, then
flush if the episode reached `maxBufferSize`. -/
def recordStep (obs act : List ℚ) (mdIdx : Option Nat) (st : CollectorState) :
    CollectorState :=
  if st.isRecording = false then st
  else match st.currentEpisode with
    | none => st
    | some e =>
      let step : DemoStep :=
        { observation := obs, action := act,
          stepIndex := mdIdx.getD e.steps.length }
      let e2 := { e with steps := e.steps ++ [step] }
      let st2 := { st with currentEpisode := some e2 }
      if e2.steps.length ≥ st.maxBufferSize then flushCurrentEpisode st2 else st2

/-- `endEpisode`: return null and change nothing when not recording or no
current episode; otherwise stamp the duration, move the episode to the
buffer, clear the current episode and the recording flag, and return the
episode. -/
def endEpisode (now : Nat) (st : CollectorState) :
    Option DemoEpisode × CollectorState :=
  if st.isRecording = false then (none, st)
  else match st.currentEpisode with
    | none => (none, st)
    | some e =>
      let ep := { e with duration := some (now - e.timestamp) }
      (some ep,
        { st with episodeBuffer := st.episodeBuffer ++ [ep],
                  currentEpisode := none, isRecording := false })

/-- All recorded steps of a collector, in order: the buffered episodes
followed by the live one. -/
def allSteps (st : CollectorState) : List DemoStep :=
  (st.episodeBuffer.flatMap (fun e => e.steps)) ++
    (match st.currentEpisode with
     | some e => e.steps
     | none => [])

def epIdStr : String := "episode_1"

/-- A just-started recording with an empty live episode. -/
def recEpisode : DemoEpisode :=
  { id := epIdStr, steps := [], timestamp := 0, duration := none }

def recState : CollectorState :=
  { autoRecord := false, maxBufferSize := 10000,
    currentEpisode := some recEpisode,
    episodeBuffer := [], isRecording := true }

/-- C10 counterexample: a caller-supplied stepMetadata carrying a
`stepIndex` key overrides the computed index — recording the first step
of an empty episode with metadata stepIndex 5 stores a step whose
stepIndex is 5, not its position 0. -/
theorem recordStep_metadata_override :
    (allSteps (recordStep [] [] (some 5) recState)).map (fun s => s.stepIndex) =
      [5] ∧ (5 : Nat) ≠ 0 := by
  constructor
  · rfl
  · simp

/-- C10 (amended): when the collector is not recording (no episode
started, or the episode already ended), `recordStep` returns without
modifying any collector state and `endEpisode` returns null without
modifying any collector state; when recording, each `recordStep` appends
exactly one step, and — provided the caller-supplied step metadata does
not itself carry a `stepIndex` key, which overrides the computed one by
object-spread — the appended step's stepIndex equals its position in the
episode that holds it. -/
theorem collector_guards (obs act : List ℚ) (mdIdx : Option Nat) (now : Nat)
    (st : CollectorState) :
    (¬ (st.isRecording = true ∧ st.currentEpisode.isSome = true) →
      recordStep obs act mdIdx st = st ∧ endEpisode now st = (none, st)) ∧
    (∀ e : DemoEpisode, st.isRecording = true → st.currentEpisode = some e →
      allSteps (recordStep obs act mdIdx st) =
        allSteps st ++
          [{ observation := obs, action := act,
             stepIndex := mdIdx.getD e.steps.length }] ∧
      (mdIdx = none → ∃ post : DemoEpisode,
        post.steps[e.steps.length]? =
          some { observation := obs, action := act,
                 stepIndex := e.steps.length } ∧
        ((recordStep obs act mdIdx st).currentEpisode = some post ∨
          (recordStep obs act mdIdx st).episodeBuffer.getLast? = some post))) := by
  constructor
  · intro hguard
    by_cases hrec : st.isRecording = true
    · cases hcur : st.currentEpisode with
      | some e => exact absurd ⟨hrec, by simp [hcur]⟩ hguard
      | none =>
        constructor
        · simp [recordStep, hrec, hcur]
        · simp [endEpisode, hrec, hcur]
    · rw [Bool.not_eq_true] at hrec
      constructor
      · simp [recordStep, hrec]
      · simp [endEpisode, hrec]
  · intro e hrec hcur
    have hstep : recordStep obs act mdIdx st =
        (let step : DemoStep :=
          { observation := obs, action := act,
            stepIndex := mdIdx.getD e.steps.length }
         let e2 := { e with steps := e.steps ++ [step] }
         let st2 := { st with currentEpisode := some e2 }
         if e2.steps.length ≥ st.maxBufferSize then flushCurrentEpisode st2
         else st2) := by
      simp [recordStep, hrec, hcur]
    set step : DemoStep :=
      { observation := obs, action := act,
        stepIndex := mdIdx.getD e.steps.length } with hstepdef
    constructor
    · rw [hstep]
      by_cases hfl : (e.steps ++ [step]).length ≥ st.maxBufferSize
      · simp only [hfl, if_pos, flushCurrentEpisode]
        simp [allSteps, hcur, List.flatMap_append]
      · simp only [hfl, if_neg, not_false_iff]
        simp [allSteps, hcur]
    · intro hnone
      refine ⟨{ e with steps := e.steps ++ [step] }, ?_, ?_⟩
      · rw [hstepdef, hnone]
        simp [List.getElem?_concat_length]
      · rw [hstep]
        by_cases hfl : (e.steps ++ [step]).length ≥ st.maxBufferSize
        · right
          simp only [hfl, if_pos, flushCurrentEpisode]
          simp
        · left
          simp only [hfl, if_neg, not_false_iff]

/-- A collector on which no episode has been started. -/
def freshCollector : CollectorState :=
  { autoRecord := false, maxBufferSize := 10000, currentEpisode := none,
    episodeBuffer := [], isRecording := false }

theorem collector_guards_witness :
    (recordStep [] [] none freshCollector = freshCollector ∧
      endEpisode 7 freshCollector = (none, freshCollector)) ∧
    allSteps (recordStep [] [] none recState) =
      allSteps recState ++
        [{ observation := [], action := [], stepIndex := 0 }] :=
  ⟨(collector_guards [] [] none 7 freshCollector).1 (by simp [freshCollector]),
   ((collector_guards [] [] none 7 recState).2 recEpisode rfl rfl).1⟩

end MimicRL
